import Mathlib

/-!
# Security::ServerOptions (squid, src/security/ServerOptions.cc)

A shallow embedding of the server-side TLS option parser and dumper, and the
properties of its directive grammar.

Conventions of the embedding

* a C string (`const char *`) is the list of the characters that stand before
  its terminating NUL;
* an `SBuf` is the list of the characters it holds, `SBuf::npos` is `none`;
* `ServerOptions` extends `PeerOptions` as in the C++ class hierarchy; the
  fields of `PeerOptions` other than `encryptTransport` are an abstract type `β`;
* `Security::PeerOptions::parse` and `Security::PeerOptions::dumpCfg` are not
  part of these sources and are parameters of `parse` and `dumpCfg`;
* a `Packable` is the text packed into it so far;
* the calls a method makes that are visible from outside (`debugs`, the call
  into the base class) are returned as a list of `Event`s, in program order;
* the cryptographic library is a record of functions over an explicit library
  state; `updateContextEecdh` returns that state, the context and its list of
  `EecdhEvent`s; the condition of its `#if` is a boolean argument;
* for `Security::ZeroSensitiveMemory` (src/security/ZeroSensitiveMemory.h) the
  memory is a function from addresses to bytes, address 0 being the null pointer.
-/

namespace Security

/-! ## C strings and `strncmp` -/

/-- The characters of a NUL-terminated C string, the terminator left out. -/
abbrev CStr := List Char

/-- The libc `strncmp`: compares at most `n` characters, a string that ends
first reads as NUL (code 0) at that place; the result is the difference of the
first pair of characters that differ, and 0 when there is none. -/
def strncmp : CStr → CStr → Nat → Int
  | _, _, 0 => 0
  | [], [], _ + 1 => 0
  | [], b :: _, _ + 1 => 0 - (b.toNat : Int)
  | a :: _, [], _ + 1 => (a.toNat : Int)
  | a :: as, b :: bs, n + 1 =>
      if a = b then strncmp as bs n else (a.toNat : Int) - (b.toNat : Int)

/-! ## SBuf -/

/-- Modelled from the spec: the class SBuf (src/sbuf/SBuf.h) is not part of
these sources; a buffer is modelled by the characters it holds. -/
abbrev SBuf := List Char

namespace SBuf

/-- Modelled from the spec: SBuf::clear, the buffer becomes empty. -/
def clear (_self : SBuf) : SBuf := []

/-- Modelled from the spec: SBuf::isEmpty. -/
def isEmpty (self : SBuf) : Bool := self.length == 0

/-- Modelled from the spec: SBuf::append of a C string, "the remainder of the
token after the key". -/
def append (self : SBuf) (s : CStr) : SBuf := self ++ s

/-- Modelled from the spec: SBuf::find of a character, "locate first `:`
character"; `none` stands for `SBuf::npos`. -/
def find : SBuf → Char → Option Nat
  | [], _ => none
  | x :: xs, c => if x = c then some 0 else (find xs c).map (· + 1)

/-- Modelled from the spec: SBuf::substr(pos, n), the slice `self[pos : pos+n]`,
and `self[pos :]` when `n` is `SBuf::npos` (`none`). -/
def substr (self : SBuf) (pos : Nat) (n : Option Nat) : SBuf :=
  match n with
  | none => self.drop pos
  | some k => (self.drop pos).take k

end SBuf

/-! ## Diagnostics and calls visible from outside -/

/-- The level argument of `debugs`. -/
inductive DebugLevel where
  | critical
  | parseNote (x : Nat)
  | level (x : Nat)
  deriving DecidableEq, Repr

/-- What a method does besides changing the object it is called on. -/
inductive Event where
  | debugs (sec : Nat) (lvl : DebugLevel) (msg : String)
  | peerParse (token : CStr)
  deriving DecidableEq, Repr

/-- The text of the warning of `parse` for a `dhparams=` that is overridden. -/
def upgradeWarning : String :=
  "UPGRADE WARNING: EECDH settings in tls-dh= override dhparams="

/-! ## The data model -/

/-- Modelled from the spec: the base class Security::PeerOptions is not part of
these sources; `encryptTransport` is the one field of it that ServerOptions.cc
reads and writes, `other` stands for all the remaining inherited fields. -/
structure PeerOptions (β : Type) where
  encryptTransport : Bool
  other : β
  deriving DecidableEq, Repr

/-- Security::ServerOptions: the inherited PeerOptions and the three members
that ServerOptions.cc initialises in its copy constructor. -/
structure ServerOptions (β : Type) extends PeerOptions β where
  dh : SBuf
  dhParamsFile : SBuf
  eecdhCurve : SBuf
  deriving DecidableEq, Repr

/-- The key of the `dh=` directive, the second argument of the first `strncmp`. -/
def dhKey : CStr := ['d', 'h', '=']

/-- The key of the `dhparams=` directive, the second argument of the second
`strncmp`. -/
def dhparamsKey : CStr := ['d', 'h', 'p', 'a', 'r', 'a', 'm', 's', '=']

/-- A ServerOptions as its default constructor leaves it: the three buffers
empty, over the base-class state `b`. -/
def ServerOptions.fresh {β : Type} (b : PeerOptions β) : ServerOptions β :=
  { toPeerOptions := b, dh := [], dhParamsFile := [], eecdhCurve := [] }

/-! ## `Security::ServerOptions::parse` (ServerOptions.cc, lines 28-72) -/

/-- Security::ServerOptions::parse. Returns the object after the call and the
events of the call. -/
def parse {β : Type} (peerParse : CStr → PeerOptions β → PeerOptions β)
    (self : ServerOptions β) (token : CStr) : ServerOptions β × List Event :=
  if token.isEmpty then
    -- config says just "ssl" or "tls" (or "tls-")
    ({ self with encryptTransport := true }, [])
  else if strncmp token dhKey 3 = 0 then
    -- clear any previous Diffi-Helman configuration
    let s1 := { self with dh := SBuf.clear self.dh }
    let s2 := { s1 with dhParamsFile := SBuf.clear s1.dhParamsFile }
    let s3 := { s2 with eecdhCurve := SBuf.clear s2.eecdhCurve }
    let s4 := { s3 with dh := SBuf.append s3.dh (token.drop 3) }
    if !SBuf.isEmpty s4.dh then
      match SBuf.find s4.dh ':' with
      | some pos =>
          let s5 := { s4 with eecdhCurve := SBuf.substr s4.dh 0 (some pos) }
          ({ s5 with dhParamsFile := SBuf.substr s5.dh (pos + 1) none }, [])
      | none => ({ s4 with dhParamsFile := s4.dh }, [])
    else
      (s4, [])
  else if strncmp token dhparamsKey 9 = 0 then
    if !SBuf.isEmpty self.eecdhCurve then
      (self, [Event.debugs 83 (DebugLevel.parseNote 1) upgradeWarning])
    else
      -- backward compatibility for dhparams= configuration
      let s1 := { self with dh := SBuf.clear self.dh }
      let s2 := { s1 with dh := SBuf.append s1.dh (token.drop 9) }
      ({ s2 with dhParamsFile := s2.dh }, [])
  else
    -- parse generic TLS options
    ({ self with toPeerOptions := peerParse token self.toPeerOptions },
      [Event.peerParse token])

/-! ## `Security::ServerOptions::dumpCfg` (ServerOptions.cc, lines 74-86) -/

/-- Modelled from the spec: the class Packable (src/base/Packable.h) is not part
of these sources; a sink is modelled by the text packed into it so far. -/
abbrev Packable := List Char

/-- Modelled from the spec: `p->appendf(" %sdh=" SQUIDSBUFPH, pfx,
SQUIDSBUFPRINT(dh))`, whose format macros are not part of these sources: "emit
a single space followed by `<pfx>dh=<dh>` where `<dh>` is the raw stored
value". -/
def appendfDh (p : Packable) (pfx : CStr) (dh : SBuf) : Packable :=
  p ++ ([' '] ++ pfx ++ dhKey ++ dh)

/-- Security::ServerOptions::dumpCfg. Returns the sink after the call. -/
def dumpCfg {β : Type} (peerDumpCfg : PeerOptions β → Packable → CStr → Packable)
    (self : ServerOptions β) (p : Packable) (pfx : CStr) : Packable :=
  -- dump out the generic TLS options
  let p1 := peerDumpCfg self.toPeerOptions p pfx
  if !self.encryptTransport then
    p1 -- no other settings are relevant
  else if !SBuf.isEmpty self.dh then
    -- dump the server-only options
    appendfDh p1 pfx self.dh
  else
    p1

/-- The server-specific text of a dump: what `dumpCfg` leaves in the sink after
the part that the base class has left there. -/
def serverText {β : Type} (peerDumpCfg : PeerOptions β → Packable → CStr → Packable)
    (self : ServerOptions β) (p : Packable) (pfx : CStr) : List Char :=
  (dumpCfg peerDumpCfg self p pfx).drop (peerDumpCfg self.toPeerOptions p pfx).length

/-! ## Feeding a dump back to `parse` -/

/-- The C `isspace`: space, and the controls from tab to carriage return. -/
def isSpace (c : Char) : Bool := c == ' ' || (9 ≤ c.toNat && c.toNat ≤ 13)

/-- A text without whitespace. -/
def SpaceFree (v : List Char) : Prop := ∀ c ∈ v, isSpace c = false

instance (v : List Char) : Decidable (SpaceFree v) := by
  unfold SpaceFree; infer_instance

/-- Splitting at whitespace, `cur` being the characters of the current token
read so far, last one first. -/
def tokensAux : List Char → List Char → List CStr
  | cur, [] => if cur.isEmpty then [] else [cur.reverse]
  | cur, c :: cs =>
      if isSpace c then
        (if cur.isEmpty then tokensAux [] cs else cur.reverse :: tokensAux [] cs)
      else tokensAux (c :: cur) cs

/-- Modelled from the spec: the configuration-line tokenizer is not part of
these sources; it "feeds whitespace-separated tokens" to `parse`, a token being
"a contiguous non-whitespace string". -/
def tokens (text : List Char) : List CStr := tokensAux [] text

/-- Removing the caller's directive-name prefix from a dumped token; a token
that does not start with it is left as it is. -/
def stripPfx (pfx tok : CStr) : CStr :=
  if pfx.isPrefixOf tok then tok.drop pfx.length else tok

/-- Feeding tokens to `parse` in order, the events left aside. -/
def parseAll {β : Type} (peerParse : CStr → PeerOptions β → PeerOptions β)
    (s : ServerOptions β) (toks : List CStr) : ServerOptions β :=
  toks.foldl (fun st t => (parse peerParse st t).1) s

/-- Dumping the server-specific part of `s` under `pfx`, tokenizing it, removing
`pfx` from each token and parsing the tokens into a ServerOptions fresh over the
base-class state `b`. -/
def reparse {β : Type} (peerParse : CStr → PeerOptions β → PeerOptions β)
    (peerDumpCfg : PeerOptions β → Packable → CStr → Packable)
    (s : ServerOptions β) (p : Packable) (pfx : CStr) (b : PeerOptions β) :
    ServerOptions β :=
  parseAll peerParse (ServerOptions.fresh b)
    ((tokens (serverText peerDumpCfg s p pfx)).map (stripPfx pfx))

/-! ## Concrete collaborators, for evaluating the definitions -/

/-- A base parser that accepts every token and changes nothing. -/
def idPeerParse : CStr → PeerOptions Unit → PeerOptions Unit := fun _ b => b

/-- A base dumper that writes nothing. -/
def noPeerDumpCfg : PeerOptions Unit → Packable → CStr → Packable := fun _ p _ => p

/-- A freshly constructed ServerOptions with transport encryption off. -/
def fresh0 : ServerOptions Unit := ServerOptions.fresh ⟨false, ()⟩

/-! ## The copy constructor (ServerOptions.cc, lines 21-26) -/

/-- Security::ServerOptions::ServerOptions(const ServerOptions &s). The
initialiser list names the three members and not the base class, so the
inherited part of the new object is built by the default constructor of
Security::PeerOptions, which is not part of these sources: `peerDefault` is the
PeerOptions that constructor builds. The argument is a const reference and is
not written. -/
def ServerOptions.copy {β : Type} (peerDefault : PeerOptions β) (s : ServerOptions β) :
    ServerOptions β :=
  { toPeerOptions := peerDefault
    dh := s.dh
    dhParamsFile := s.dhParamsFile
    eecdhCurve := s.eecdhCurve }

/-- The states that a program can reach from a freshly constructed
ServerOptions by calls of `parse` and by copy construction. -/
inductive Reachable {β : Type} (peerParse : CStr → PeerOptions β → PeerOptions β)
    (peerDefault : PeerOptions β) : ServerOptions β → Prop where
  | fresh (b : PeerOptions β) : Reachable peerParse peerDefault (ServerOptions.fresh b)
  | parse (s : ServerOptions β) (token : CStr) :
      Reachable peerParse peerDefault s →
      Reachable peerParse peerDefault (parse peerParse s token).1
  | copy (s : ServerOptions β) :
      Reachable peerParse peerDefault s →
      Reachable peerParse peerDefault (ServerOptions.copy peerDefault s)

/-- The consistency of the three Diffie-Hellman fields: the curve name holds
no colon, `dh` is the file path alone or the curve name, a colon and the file
path, and it is the latter whenever the curve name is not empty. -/
def DhConsistent {β : Type} (s : ServerOptions β) : Prop :=
  ':' ∉ s.eecdhCurve ∧
  (s.dh = s.dhParamsFile ∨ s.dh = s.eecdhCurve ++ [':'] ++ s.dhParamsFile) ∧
  (s.eecdhCurve ≠ [] → s.dh = s.eecdhCurve ++ [':'] ++ s.dhParamsFile)

/-! ## `Security::ServerOptions::updateContextEecdh` (ServerOptions.cc, lines 88-119) -/

/-- The functions of the cryptographic library that `updateContextEecdh` calls.
The library is not part of this repository: each function is a parameter, over
a library state `L` (its error queue and the like), a context type `Ctx` and a
type `Key` of allocated key-exchange parameter objects; a NULL result of the
allocation is `none`. -/
structure OpenSSL (L Ctx Key : Type) where
  OBJ_sn2nid : L → CStr → L × Int
  EC_KEY_new_by_curve_name : L → Int → L × Option Key
  SSL_CTX_set_tmp_ecdh : L → Ctx → Key → L × Ctx × Int
  ERR_get_error : L → L × Nat
  ERR_error_string : L → Nat → String
  EC_KEY_free : L → Key → L

/-- What `updateContextEecdh` does that is visible from outside: its `debugs`
calls and its calls into the cryptographic library, with their arguments. -/
inductive EecdhEvent (Key : Type) where
  | debugs (sec : Nat) (lvl : DebugLevel) (msg : String)
  | OBJ_sn2nid (sn : CStr)
  | EC_KEY_new_by_curve_name (nid : Int)
  | SSL_CTX_set_tmp_ecdh (key : Key)
  | ERR_get_error
  | ERR_error_string (e : Nat)
  | EC_KEY_free (key : Key)
  deriving DecidableEq, Repr

/-- Whether an event is a call into the cryptographic library. -/
def EecdhEvent.isLibraryCall {Key : Type} : EecdhEvent Key → Bool
  | EecdhEvent.debugs _ _ _ => false
  | _ => true

/-- Whether an event is a release of a key-exchange parameter object. -/
def EecdhEvent.isFree {Key : Type} : EecdhEvent Key → Bool
  | EecdhEvent.EC_KEY_free _ => true
  | _ => false

/-- Whether an event is a `debugs` call at the level DBG_CRITICAL. -/
def EecdhEvent.isError {Key : Type} : EecdhEvent Key → Bool
  | EecdhEvent.debugs _ DebugLevel.critical _ => true
  | _ => false

/-- The message of the level 9 trace of `updateContextEecdh`. -/
def settingMsg (curve : SBuf) : String :=
  "Setting Ephemeral ECDH curve to " ++ String.mk curve ++ "."

/-- The message for a curve name that the library does not know. -/
def unknownCurveMsg (curve : SBuf) : String :=
  "ERROR: Unknown EECDH curve '" ++ String.mk curve ++ "'"

/-- The message for a failed allocation. -/
def unableToConfigureMsg (detail : String) : String :=
  "ERROR: Unable to configure Ephemeral ECDH: " ++ detail

/-- The message for a failed installation. -/
def unableToSetMsg (detail : String) : String :=
  "ERROR: Unable to set Ephemeral ECDH: " ++ detail

/-- The message of a build without EECDH. -/
def notAvailableMsg : String :=
  "ERROR: EECDH is not available in this build." ++
    " Please link against OpenSSL>=0.9.8 and ensure OPENSSL_NO_ECDH is not set."

/-- Security::ServerOptions::updateContextEecdh. `haveEcdh` is the condition of
the `#if` (USE_OPENSSL, a recent enough OPENSSL_VERSION_NUMBER, no
OPENSSL_NO_ECDH). Returns the library state and the context after the call, and
the events of the call. -/
def updateContextEecdh {β L Ctx Key : Type} (haveEcdh : Bool) (ssl : OpenSSL L Ctx Key)
    (self : ServerOptions β) (lib : L) (ctx : Ctx) : L × Ctx × List (EecdhEvent Key) :=
  if SBuf.isEmpty self.eecdhCurve then
    (lib, ctx, [])
  else
    let ev0 : List (EecdhEvent Key) :=
      [EecdhEvent.debugs 83 (DebugLevel.level 9) (settingMsg self.eecdhCurve)]
    if haveEcdh then
      let r1 := ssl.OBJ_sn2nid lib self.eecdhCurve
      let nid := r1.2
      let ev1 := ev0 ++ [EecdhEvent.OBJ_sn2nid self.eecdhCurve]
      if nid = 0 then
        (r1.1, ctx,
          ev1 ++ [EecdhEvent.debugs 83 DebugLevel.critical (unknownCurveMsg self.eecdhCurve)])
      else
        let r2 := ssl.EC_KEY_new_by_curve_name r1.1 nid
        let ev2 := ev1 ++ [EecdhEvent.EC_KEY_new_by_curve_name nid]
        match r2.2 with
        | none =>
            let r3 := ssl.ERR_get_error r2.1
            (r3.1, ctx,
              ev2 ++ [EecdhEvent.ERR_get_error, EecdhEvent.ERR_error_string r3.2,
                EecdhEvent.debugs 83 DebugLevel.critical
                  (unableToConfigureMsg (ssl.ERR_error_string r3.1 r3.2))])
        | some ecdh =>
            let r3 := ssl.SSL_CTX_set_tmp_ecdh r2.1 ctx ecdh
            let ev3 := ev2 ++ [EecdhEvent.SSL_CTX_set_tmp_ecdh ecdh]
            if r3.2.2 ≠ 0 then
              let r4 := ssl.ERR_get_error r3.1
              (ssl.EC_KEY_free r4.1 ecdh, r3.2.1,
                ev3 ++ [EecdhEvent.ERR_get_error, EecdhEvent.ERR_error_string r4.2,
                  EecdhEvent.debugs 83 DebugLevel.critical
                    (unableToSetMsg (ssl.ERR_error_string r4.1 r4.2)),
                  EecdhEvent.EC_KEY_free ecdh])
            else
              (ssl.EC_KEY_free r3.1 ecdh, r3.2.1, ev3 ++ [EecdhEvent.EC_KEY_free ecdh])
    else
      (lib, ctx, ev0 ++ [EecdhEvent.debugs 83 DebugLevel.critical notAvailableMsg])

/-- A cryptographic library for evaluating `updateContextEecdh`: it knows the
curve `prime256v1` (identifier 415), allocates iff `allocOk`, and its install
call returns `installRet`, setting the parameters of the context (an
`Option Nat`) when that is 1, the value by which the library signals success. -/
def stubSSL (allocOk : Bool) (installRet : Int) : OpenSSL Unit (Option Nat) Nat where
  OBJ_sn2nid := fun l sn => (l, if sn = "prime256v1".toList then 415 else 0)
  EC_KEY_new_by_curve_name := fun l nid => (l, if allocOk then some nid.toNat else none)
  SSL_CTX_set_tmp_ecdh := fun l ctx key => (l, if installRet = 1 then some key else ctx, installRet)
  ERR_get_error := fun l => (l, 0)
  ERR_error_string := fun _ _ => "error:00000000:lib(0):func(0):reason(0)"
  EC_KEY_free := fun l _ => l

/-! ## `Security::ZeroSensitiveMemory` (ZeroSensitiveMemory.h, lines 16-37) -/

/-- The memory of the process: the byte at each address. Address 0 is the null
pointer. -/
abbrev Memory := Nat → Nat

/-- The store loop of `memset`: the bytes at `dst`, ..., `dst + n - 1` are set
to `byte`. -/
def memsetBytes (m : Memory) (dst byte : Nat) : Nat → Memory
  | 0 => m
  | n + 1 => fun a => if a = dst + n then byte else memsetBytes m dst byte n a

/-- The libc `memset(dst, c, len)`: stores `c`, converted to unsigned char, in
each of the `len` bytes from `dst` on. A call with a null `dst` is outside the
contract of `memset` and is modelled as a failure, `none`. -/
def memset (m : Memory) (dst : Nat) (c : Int) (len : Nat) : Option Memory :=
  if dst = 0 then none else some (memsetBytes m dst (c % 256).toNat len)

/-- Security::ZeroSensitiveMemory. The call goes through the volatile function
pointer `setMemory`, which holds the address of `std::memset`. Returns the
memory after the call, `none` if the call fails. -/
def ZeroSensitiveMemory (m : Memory) (dst : Nat) (len : Nat) : Option Memory :=
  if len = 0 then
    some m
  else if dst = 0 then
    some m
  else
    memset m dst 0 len

/-! ## Lemmas on the primitives -/

theorem SBuf.find_eq_none_of_not_mem (c : Char) :
    ∀ s : SBuf, c ∉ s → SBuf.find s c = none
  | [], _ => rfl
  | x :: xs, h => by
      have hx : x ≠ c := fun e => h (by simp [e])
      have hxs : c ∉ xs := fun e => h (by simp [e])
      simp [SBuf.find, hx, SBuf.find_eq_none_of_not_mem c xs hxs]

theorem SBuf.find_append_cons (c : Char) (f : SBuf) :
    ∀ a : SBuf, c ∉ a → SBuf.find (a ++ c :: f) c = some a.length
  | [], _ => by simp [SBuf.find]
  | x :: xs, h => by
      have hx : x ≠ c := fun e => h (by simp [e])
      have hxs : c ∉ xs := fun e => h (by simp [e])
      simp [SBuf.find, hx, SBuf.find_append_cons c f xs hxs]

theorem strncmp_dhKey_append (v : CStr) : strncmp (dhKey ++ v) dhKey 3 = 0 := by
  simp [dhKey, strncmp]

/-- The state after `parse` of a `dh=` token, in closed form. -/
theorem parse_dh_eq {β : Type} (peerParse : CStr → PeerOptions β → PeerOptions β)
    (s : ServerOptions β) (v : CStr) :
    parse peerParse s (dhKey ++ v) =
      (match SBuf.find v ':' with
        | some pos =>
            ({ s with dh := v, eecdhCurve := v.take pos, dhParamsFile := v.drop (pos + 1) }, [])
        | none => ({ s with dh := v, eecdhCurve := [], dhParamsFile := v }, [])) := by
  have h0 : (dhKey ++ v).isEmpty = false := by simp [dhKey]
  have h3 : (dhKey ++ v).drop 3 = v := by simp [dhKey]
  unfold parse
  rw [h0]
  simp only [Bool.false_eq_true, if_false, strncmp_dhKey_append, if_true, h3,
    SBuf.clear, SBuf.append, List.nil_append, SBuf.substr, List.drop_zero]
  cases v with
  | nil => simp [SBuf.isEmpty, SBuf.find]
  | cons x xs =>
      simp only [SBuf.isEmpty, List.length_cons]
      cases SBuf.find (x :: xs) ':' <;> simp

theorem SBuf.find_cases (c : Char) :
    ∀ s : SBuf, (SBuf.find s c = none ∧ c ∉ s) ∨
      ∃ a f, s = a ++ c :: f ∧ c ∉ a ∧ SBuf.find s c = some a.length
  | [] => Or.inl ⟨rfl, by simp⟩
  | x :: xs => by
      by_cases hx : x = c
      · exact Or.inr ⟨[], xs, by simp [hx], by simp, by simp [SBuf.find, hx]⟩
      · rcases SBuf.find_cases c xs with ⟨h1, h2⟩ | ⟨a, f, h1, h2, h3⟩
        · refine Or.inl ⟨by simp [SBuf.find, hx, h1], ?_⟩
          intro hm
          rcases List.mem_cons.1 hm with e | e
          · exact hx e.symm
          · exact h2 e
        · refine Or.inr ⟨x :: a, f, by simp [h1], ?_, ?_⟩
          · intro hm
            rcases List.mem_cons.1 hm with e | e
            · exact hx e.symm
            · exact h2 e
          · simp [SBuf.find, hx, h3]

/-- The libc `strncmp` against a key without NUL, over the length of the key, is
0 exactly when the string starts with the key. -/
theorem strncmp_eq_zero_iff :
    ∀ (key : CStr), (∀ c ∈ key, c.toNat ≠ 0) →
      ∀ a : CStr, strncmp a key key.length = 0 ↔ List.IsPrefix key a
  | [], _, a => by simp [strncmp]
  | y :: ys, hk, [] => by
      have hy : y.toNat ≠ 0 := hk y (by simp)
      simp only [strncmp, List.length_cons]
      constructor
      · intro h; omega
      · intro h; simp at h
  | y :: ys, hk, x :: xs => by
      have ih := strncmp_eq_zero_iff ys (fun c hc => hk c (by simp [hc])) xs
      simp only [strncmp, List.length_cons, List.cons_prefix_cons]
      by_cases hxy : x = y
      · simp [hxy, ih]
      · rw [if_neg hxy]
        constructor
        · intro h
          have e : x.toNat = y.toNat := by omega
          exact absurd (Char.ext (UInt32.toNat.inj e)) hxy
        · intro h
          exact absurd h.1.symm hxy

theorem strncmp_dhKey_iff (token : CStr) :
    strncmp token dhKey 3 = 0 ↔ List.IsPrefix dhKey token := by
  have h := strncmp_eq_zero_iff dhKey (by decide) token
  simpa [dhKey] using h

theorem strncmp_dhparamsKey_iff (token : CStr) :
    strncmp token dhparamsKey 9 = 0 ↔ List.IsPrefix dhparamsKey token := by
  have h := strncmp_eq_zero_iff dhparamsKey (by decide) token
  simpa [dhparamsKey] using h

theorem strncmp_dhparamsKey_append (v : CStr) :
    strncmp (dhparamsKey ++ v) dhparamsKey 9 = 0 :=
  (strncmp_dhparamsKey_iff _).2 (List.prefix_append _ _)

theorem strncmp_dhKey_dhparams (v : CStr) :
    strncmp (dhparamsKey ++ v) dhKey 3 ≠ 0 := by
  simp [dhparamsKey, dhKey, strncmp]

/-- The result of `parse` on a `dhparams=` token, in closed form. -/
theorem parse_dhparams_eq {β : Type} (peerParse : CStr → PeerOptions β → PeerOptions β)
    (s : ServerOptions β) (v : CStr) :
    parse peerParse s (dhparamsKey ++ v) =
      (if s.eecdhCurve = [] then ({ s with dh := v, dhParamsFile := v }, [])
        else (s, [Event.debugs 83 (DebugLevel.parseNote 1) upgradeWarning])) := by
  have h0 : (dhparamsKey ++ v).isEmpty = false := by simp [dhparamsKey]
  have h9 : (dhparamsKey ++ v).drop 9 = v := by simp [dhparamsKey]
  unfold parse
  rw [h0]
  simp only [Bool.false_eq_true, if_false, strncmp_dhKey_dhparams, strncmp_dhparamsKey_append,
    if_true, h9, SBuf.clear, SBuf.append, List.nil_append]
  cases h : s.eecdhCurve <;> simp [SBuf.isEmpty]

theorem parse_dh_dh {β : Type} (peerParse : CStr → PeerOptions β → PeerOptions β)
    (s : ServerOptions β) (v : CStr) : (parse peerParse s (dhKey ++ v)).1.dh = v := by
  rw [parse_dh_eq]
  cases SBuf.find v ':' <;> rfl

theorem parse_dh_encryptTransport {β : Type}
    (peerParse : CStr → PeerOptions β → PeerOptions β) (s : ServerOptions β) (v : CStr) :
    (parse peerParse s (dhKey ++ v)).1.encryptTransport = s.encryptTransport := by
  rw [parse_dh_eq]
  cases SBuf.find v ':' <;> rfl

/-- The three fields after a `dh=` token depend on the token alone. -/
theorem parse_dh_fields_indep {β : Type}
    (peerParse : CStr → PeerOptions β → PeerOptions β) (s t : ServerOptions β) (v : CStr) :
    (parse peerParse s (dhKey ++ v)).1.dh = (parse peerParse t (dhKey ++ v)).1.dh ∧
    (parse peerParse s (dhKey ++ v)).1.dhParamsFile =
      (parse peerParse t (dhKey ++ v)).1.dhParamsFile ∧
    (parse peerParse s (dhKey ++ v)).1.eecdhCurve =
      (parse peerParse t (dhKey ++ v)).1.eecdhCurve := by
  rw [parse_dh_eq, parse_dh_eq]
  cases SBuf.find v ':' <;> simp

theorem dumpCfg_eq {β : Type} (peerDumpCfg : PeerOptions β → Packable → CStr → Packable)
    (s : ServerOptions β) (p : Packable) (pfx : CStr) :
    dumpCfg peerDumpCfg s p pfx =
      peerDumpCfg s.toPeerOptions p pfx ++
        (if s.encryptTransport = true ∧ s.dh ≠ [] then [' '] ++ pfx ++ dhKey ++ s.dh
          else []) := by
  unfold dumpCfg appendfDh SBuf.isEmpty
  cases he : s.encryptTransport <;> cases hd : s.dh <;> simp

theorem serverText_eq {β : Type} (peerDumpCfg : PeerOptions β → Packable → CStr → Packable)
    (s : ServerOptions β) (p : Packable) (pfx : CStr) :
    serverText peerDumpCfg s p pfx =
      (if s.encryptTransport = true ∧ s.dh ≠ [] then [' '] ++ pfx ++ dhKey ++ s.dh
        else []) := by
  unfold serverText
  rw [dumpCfg_eq, List.drop_left]

theorem tokensAux_spaceFree :
    ∀ (w cur : List Char), SpaceFree w → (cur ≠ [] ∨ w ≠ []) →
      tokensAux cur w = [cur.reverse ++ w]
  | [], cur, _, h => by
      have hc : cur ≠ [] := by
        rcases h with h | h
        · exact h
        · exact absurd rfl h
      cases cur with
      | nil => exact absurd rfl hc
      | cons x xs => simp [tokensAux]
  | c :: cs, cur, hw, _ => by
      have hc : isSpace c = false := hw c (by simp)
      have hcs : SpaceFree cs := fun d hd => hw d (by simp [hd])
      have ih := tokensAux_spaceFree cs (c :: cur) hcs (Or.inl (by simp))
      simp [tokensAux, hc, ih]

theorem tokens_space_cons (w : List Char) (hw : SpaceFree w) (hne : w ≠ []) :
    tokens (' ' :: w) = [w] := by
  have h := tokensAux_spaceFree w [] hw (Or.inr hne)
  simp only [tokens, tokensAux]
  simpa [isSpace] using h

theorem stripPfx_append (pfx x : CStr) : stripPfx pfx (pfx ++ x) = x := by
  have h : pfx.isPrefixOf (pfx ++ x) = true :=
    List.isPrefixOf_iff_prefix.2 (List.prefix_append pfx x)
  simp [stripPfx, h]

/-! ## Claims -/

/-- C1: `parse` splits the value of a `dh=` token at its first colon: when `c`
holds no colon, after `parse("dh=" ++ c ++ ":" ++ f)` the field `dh` is
`c ++ ":" ++ f`, `eecdhCurve` is `c` and `dhParamsFile` is `f` verbatim, further
colons of `f` included, from every prior state. -/
theorem parse_dh_splits_at_first_colon {β : Type}
    (peerParse : CStr → PeerOptions β → PeerOptions β) (s : ServerOptions β)
    (c f : CStr) (hc : ':' ∉ c) :
    (parse peerParse s (dhKey ++ c ++ [':'] ++ f)).1.dh = c ++ [':'] ++ f ∧
    (parse peerParse s (dhKey ++ c ++ [':'] ++ f)).1.eecdhCurve = c ∧
    (parse peerParse s (dhKey ++ c ++ [':'] ++ f)).1.dhParamsFile = f := by
  have e : dhKey ++ c ++ [':'] ++ f = dhKey ++ (c ++ ':' :: f) := by simp
  rw [e, parse_dh_eq, SBuf.find_append_cons ':' f c hc]
  simp

/-- C2: when `v` holds no colon, `parse("dh=" ++ v)` leaves `dh = v`,
`dhParamsFile = v` and `eecdhCurve` empty, whatever the prior state; with `v`
empty all three fields end empty. -/
theorem parse_dh_without_colon {β : Type}
    (peerParse : CStr → PeerOptions β → PeerOptions β) (s : ServerOptions β)
    (v : CStr) (hv : ':' ∉ v) :
    (parse peerParse s (dhKey ++ v)).1.dh = v ∧
    (parse peerParse s (dhKey ++ v)).1.dhParamsFile = v ∧
    (parse peerParse s (dhKey ++ v)).1.eecdhCurve = [] := by
  rw [parse_dh_eq, SBuf.find_eq_none_of_not_mem ':' v hv]
  simp

/-- C3, as amended: after `parse("dh=" ++ v)`, from every prior state,
`eecdhCurve` is empty if and only if `v` holds no colon or starts with a
colon. -/
theorem parse_dh_curve_empty_iff {β : Type}
    (peerParse : CStr → PeerOptions β → PeerOptions β) (s : ServerOptions β)
    (v : CStr) :
    (parse peerParse s (dhKey ++ v)).1.eecdhCurve = [] ↔
      (':' ∉ v ∨ v.head? = some ':') := by
  rw [parse_dh_eq]
  rcases SBuf.find_cases ':' v with ⟨h1, h2⟩ | ⟨a, f, h1, h2, h3⟩
  · rw [h1]
    simp [h2]
  · rw [h3]
    subst h1
    cases a with
    | nil => simp
    | cons x xs =>
        have hx : x ≠ ':' := fun e => h2 (by simp [e])
        simp [hx]

/-- C4: the modern form wins over the legacy form: in a state whose `eecdhCurve`
is not empty, `parse("dhparams=" ++ v)` leaves the whole state as it was and
reports the upgrade warning, once, and nothing else. -/
theorem parse_dhparams_ignored_after_curve {β : Type}
    (peerParse : CStr → PeerOptions β → PeerOptions β) (s : ServerOptions β)
    (v : CStr) (hc : s.eecdhCurve ≠ []) :
    parse peerParse s (dhparamsKey ++ v) =
      (s, [Event.debugs 83 (DebugLevel.parseNote 1) upgradeWarning]) := by
  rw [parse_dhparams_eq, if_neg hc]

/-- C5: in a state whose `eecdhCurve` is empty, `parse("dhparams=" ++ v)` sets
`dh` and `dhParamsFile` to the whole of `v`, colons included, leaves
`eecdhCurve` empty and every other field as it was, and reports nothing. -/
theorem parse_dhparams_sets_file {β : Type}
    (peerParse : CStr → PeerOptions β → PeerOptions β) (s : ServerOptions β)
    (v : CStr) (hc : s.eecdhCurve = []) :
    parse peerParse s (dhparamsKey ++ v) =
      ({ s with dh := v, dhParamsFile := v, eecdhCurve := [] }, []) := by
  rw [parse_dhparams_eq, if_pos hc]
  cases s
  simp_all

/-- C6: `parse("")` sets `encryptTransport` and leaves `dh`, `dhParamsFile`,
`eecdhCurve` and the other inherited fields as they were; it makes no call into
the base parser and reports nothing. -/
theorem parse_empty_token {β : Type}
    (peerParse : CStr → PeerOptions β → PeerOptions β) (s : ServerOptions β) :
    parse peerParse s [] = ({ s with encryptTransport := true }, []) := by
  simp [parse]

/-- C7: a token that is not empty and starts with neither `dh=` nor `dhparams=`
(the comparison is by character, so upper case does not match) goes to the base
parser, which is called once, with that token, on the inherited part, the three
server fields staying as they were; for a token that is empty or starts with
one of the two keys the base parser is not called. -/
theorem parse_delegates_other_tokens {β : Type}
    (peerParse : CStr → PeerOptions β → PeerOptions β) (s : ServerOptions β)
    (token : CStr) :
    (token ≠ [] ∧ ¬ List.IsPrefix dhKey token ∧ ¬ List.IsPrefix dhparamsKey token →
      parse peerParse s token =
        ({ s with toPeerOptions := peerParse token s.toPeerOptions },
          [Event.peerParse token])) ∧
    (token = [] ∨ List.IsPrefix dhKey token ∨ List.IsPrefix dhparamsKey token →
      ∀ t, Event.peerParse t ∉ (parse peerParse s token).2) := by
  constructor
  · rintro ⟨h0, h1, h2⟩
    have e0 : token.isEmpty = false := by
      cases token with
      | nil => exact absurd rfl h0
      | cons x xs => rfl
    have e1 : ¬ strncmp token dhKey 3 = 0 := fun h => h1 ((strncmp_dhKey_iff token).1 h)
    have e2 : ¬ strncmp token dhparamsKey 9 = 0 :=
      fun h => h2 ((strncmp_dhparamsKey_iff token).1 h)
    simp [parse, e0, e1, e2]
  · intro h t
    rcases h with h | ⟨v, h⟩ | ⟨v, h⟩
    · subst h
      simp [parse]
    · subst h
      rw [parse_dh_eq]
      cases SBuf.find v ':' <;> simp
    · subst h
      rw [parse_dhparams_eq]
      split <;> simp

/-- C8: with `encryptTransport` set, `dumpCfg` leaves in the sink what the base
dumper leaves there, followed by `" " ++ pfx ++ "dh=" ++ dh` when `dh` is not
empty and by nothing when it is: the value written is the stored `dh`, one
token at most; and a value that came in through `dhparams=` is written under
the key `dh=` as well. -/
theorem dumpCfg_encrypted {β : Type}
    (peerDumpCfg : PeerOptions β → Packable → CStr → Packable)
    (s : ServerOptions β) (p : Packable) (pfx : CStr)
    (he : s.encryptTransport = true) :
    dumpCfg peerDumpCfg s p pfx =
      peerDumpCfg s.toPeerOptions p pfx ++
        (if s.dh = [] then [] else [' '] ++ pfx ++ dhKey ++ s.dh) ∧
    ∀ (peerParse : CStr → PeerOptions β → PeerOptions β) (v : CStr),
      s.eecdhCurve = [] →
      dumpCfg peerDumpCfg (parse peerParse s (dhparamsKey ++ v)).1 p pfx =
        peerDumpCfg s.toPeerOptions p pfx ++
          (if v = [] then [] else [' '] ++ pfx ++ dhKey ++ v) := by
  constructor
  · rw [dumpCfg_eq]
    by_cases hd : s.dh = [] <;> simp [he, hd]
  · intro peerParse v hc
    rw [parse_dhparams_eq, if_pos hc, dumpCfg_eq]
    by_cases hv : v = [] <;> simp [he, hv]

/-- C9: with `encryptTransport` not set, `dumpCfg` leaves in the sink what the
base dumper leaves there and nothing more, whatever the three server fields
hold. -/
theorem dumpCfg_not_encrypted {β : Type}
    (peerDumpCfg : PeerOptions β → Packable → CStr → Packable)
    (s : ServerOptions β) (p : Packable) (pfx : CStr)
    (he : s.encryptTransport = false) :
    dumpCfg peerDumpCfg s p pfx = peerDumpCfg s.toPeerOptions p pfx := by
  rw [dumpCfg_eq]
  simp [he]

/-- C10, as amended: dump and parse round trip for the `dh=` form, for a value
and a caller's prefix that hold no whitespace: with `s` the state after
`parse("dh=" ++ v)` and `encryptTransport` set, the tokens of the
server-specific text of `dumpCfg(s, pfx)`, `pfx` removed from each, parsed in
order into a fresh ServerOptions give the `dh`, `dhParamsFile` and
`eecdhCurve` of `s`. -/
theorem reparse_dh_roundtrip {β : Type}
    (peerParse : CStr → PeerOptions β → PeerOptions β)
    (peerDumpCfg : PeerOptions β → Packable → CStr → Packable)
    (prior : ServerOptions β) (v pfx : CStr) (p : Packable) (b : PeerOptions β)
    (hv : SpaceFree v) (hp : SpaceFree pfx)
    (he : (parse peerParse prior (dhKey ++ v)).1.encryptTransport = true) :
    (reparse peerParse peerDumpCfg (parse peerParse prior (dhKey ++ v)).1 p pfx b).dh =
      (parse peerParse prior (dhKey ++ v)).1.dh ∧
    (reparse peerParse peerDumpCfg (parse peerParse prior (dhKey ++ v)).1 p pfx b).dhParamsFile =
      (parse peerParse prior (dhKey ++ v)).1.dhParamsFile ∧
    (reparse peerParse peerDumpCfg (parse peerParse prior (dhKey ++ v)).1 p pfx b).eecdhCurve =
      (parse peerParse prior (dhKey ++ v)).1.eecdhCurve := by
  unfold reparse
  rw [serverText_eq, he, parse_dh_dh]
  by_cases hne : v = []
  · subst hne
    rw [parse_dh_eq]
    simp [tokens, tokensAux, parseAll, ServerOptions.fresh, SBuf.find]
  · have hw : SpaceFree (pfx ++ (dhKey ++ v)) := by
      intro c hc
      rcases List.mem_append.1 hc with h | h
      · exact hp c h
      · rcases List.mem_append.1 h with h | h
        · have hk : SpaceFree dhKey := by decide
          exact hk c h
        · exact hv c h
    have ht : tokens ([' '] ++ pfx ++ dhKey ++ v) = [pfx ++ (dhKey ++ v)] := by
      have := tokens_space_cons (pfx ++ (dhKey ++ v)) hw (by simp [dhKey])
      simpa using this
    simp only [true_and, ne_eq, hne, not_false_eq_true, if_true, ht, List.map_cons,
      List.map_nil, stripPfx_append, parseAll, List.foldl_cons, List.foldl_nil]
    have hf := parse_dh_fields_indep peerParse (ServerOptions.fresh b) prior v
    exact ⟨parse_dh_dh peerParse (ServerOptions.fresh b) v, hf.2⟩

/-- Witness of C1: the token `dh=secp384r1:/etc/dhparams.pem`. -/
theorem parse_dh_splits_at_first_colon_witness :
    ':' ∉ "secp384r1".toList ∧
    (parse idPeerParse fresh0 "dh=secp384r1:/etc/dhparams.pem".toList).1.dh =
      "secp384r1:/etc/dhparams.pem".toList ∧
    (parse idPeerParse fresh0 "dh=secp384r1:/etc/dhparams.pem".toList).1.eecdhCurve =
      "secp384r1".toList ∧
    (parse idPeerParse fresh0 "dh=secp384r1:/etc/dhparams.pem".toList).1.dhParamsFile =
      "/etc/dhparams.pem".toList :=
  ⟨by decide,
    parse_dh_splits_at_first_colon idPeerParse fresh0 "secp384r1".toList
      "/etc/dhparams.pem".toList (by decide)⟩

/-- Witness of C2: the token `dh=/etc/dhparams.pem`. -/
theorem parse_dh_without_colon_witness :
    ':' ∉ "/etc/dhparams.pem".toList ∧
    (parse idPeerParse fresh0 "dh=/etc/dhparams.pem".toList).1.dh =
      "/etc/dhparams.pem".toList ∧
    (parse idPeerParse fresh0 "dh=/etc/dhparams.pem".toList).1.dhParamsFile =
      "/etc/dhparams.pem".toList ∧
    (parse idPeerParse fresh0 "dh=/etc/dhparams.pem".toList).1.eecdhCurve = [] :=
  ⟨by decide,
    parse_dh_without_colon idPeerParse fresh0 "/etc/dhparams.pem".toList (by decide)⟩

/-- Counterexample to C3 as stated: the value `:x` holds a colon, and after
`parse("dh=:x")` the field `eecdhCurve` is empty. -/
theorem parse_dh_leading_colon_counterexample :
    ¬ ((parse idPeerParse fresh0 "dh=:x".toList).1.eecdhCurve = [] ↔
        ':' ∉ ":x".toList) := by
  decide

/-- Witness of C4: `dh=secp384r1:/a.pem`, then `dhparams=/b.pem`. -/
theorem parse_dhparams_ignored_after_curve_witness :
    (parse idPeerParse fresh0 "dh=secp384r1:/a.pem".toList).1.eecdhCurve ≠ [] ∧
    parse idPeerParse (parse idPeerParse fresh0 "dh=secp384r1:/a.pem".toList).1
        "dhparams=/b.pem".toList =
      ((parse idPeerParse fresh0 "dh=secp384r1:/a.pem".toList).1,
        [Event.debugs 83 (DebugLevel.parseNote 1) upgradeWarning]) :=
  ⟨by decide,
    parse_dhparams_ignored_after_curve idPeerParse
      (parse idPeerParse fresh0 "dh=secp384r1:/a.pem".toList).1 "/b.pem".toList (by decide)⟩

/-- Witness of C5: `dhparams=/b.pem` on a freshly constructed ServerOptions. -/
theorem parse_dhparams_sets_file_witness :
    fresh0.eecdhCurve = [] ∧
    parse idPeerParse fresh0 "dhparams=/b.pem".toList =
      ({ fresh0 with dh := "/b.pem".toList, dhParamsFile := "/b.pem".toList,
                     eecdhCurve := [] }, []) :=
  ⟨rfl, parse_dhparams_sets_file idPeerParse fresh0 "/b.pem".toList rfl⟩

/-- Witness of C7: the tokens `DH=x`, `dh`, `dhparams` and `tls-dh=x` go to the
base parser; the tokens `dh=x` and `dhparams=x` and the empty token do not. -/
theorem parse_delegates_other_tokens_witness :
    (parse idPeerParse fresh0 "DH=x".toList = (fresh0, [Event.peerParse "DH=x".toList]) ∧
      parse idPeerParse fresh0 "dh".toList = (fresh0, [Event.peerParse "dh".toList]) ∧
      parse idPeerParse fresh0 "dhparams".toList =
        (fresh0, [Event.peerParse "dhparams".toList]) ∧
      parse idPeerParse fresh0 "tls-dh=x".toList =
        (fresh0, [Event.peerParse "tls-dh=x".toList])) ∧
    (∀ t, Event.peerParse t ∉ (parse idPeerParse fresh0 "dh=x".toList).2) ∧
    (∀ t, Event.peerParse t ∉ (parse idPeerParse fresh0 "dhparams=x".toList).2) ∧
    (∀ t, Event.peerParse t ∉ (parse idPeerParse fresh0 []).2) :=
  ⟨⟨(parse_delegates_other_tokens idPeerParse fresh0 "DH=x".toList).1
        ⟨by decide, by decide, by decide⟩,
      (parse_delegates_other_tokens idPeerParse fresh0 "dh".toList).1
        ⟨by decide, by decide, by decide⟩,
      (parse_delegates_other_tokens idPeerParse fresh0 "dhparams".toList).1
        ⟨by decide, by decide, by decide⟩,
      (parse_delegates_other_tokens idPeerParse fresh0 "tls-dh=x".toList).1
        ⟨by decide, by decide, by decide⟩⟩,
    (parse_delegates_other_tokens idPeerParse fresh0 "dh=x".toList).2
      (Or.inr (Or.inl (by decide))),
    (parse_delegates_other_tokens idPeerParse fresh0 "dhparams=x".toList).2
      (Or.inr (Or.inr (by decide))),
    (parse_delegates_other_tokens idPeerParse fresh0 []).2 (Or.inl rfl)⟩

/-- Witness of C8: a state with `dh` set by `dh=a:b`, dumped under `tls-`, and
a state with `dh` set by `dhparams=/b.pem`. -/
theorem dumpCfg_encrypted_witness :
    (parse idPeerParse { fresh0 with encryptTransport := true }
      "dh=a:b".toList).1.encryptTransport = true ∧
    dumpCfg noPeerDumpCfg
        (parse idPeerParse { fresh0 with encryptTransport := true } "dh=a:b".toList).1
        [] "tls-".toList = " tls-dh=a:b".toList ∧
    dumpCfg noPeerDumpCfg
        (parse idPeerParse { fresh0 with encryptTransport := true }
          "dhparams=/b.pem".toList).1
        [] "tls-".toList = " tls-dh=/b.pem".toList :=
  ⟨by decide,
    (dumpCfg_encrypted noPeerDumpCfg
      (parse idPeerParse { fresh0 with encryptTransport := true } "dh=a:b".toList).1
      [] "tls-".toList (by decide)).1,
    (dumpCfg_encrypted noPeerDumpCfg { fresh0 with encryptTransport := true }
      [] "tls-".toList rfl).2 idPeerParse "/b.pem".toList rfl⟩

/-- Witness of C9: a state with `dh` set and `encryptTransport` not set. -/
theorem dumpCfg_not_encrypted_witness :
    dumpCfg noPeerDumpCfg { fresh0 with dh := "a:b".toList } [] "tls-".toList = [] :=
  dumpCfg_not_encrypted noPeerDumpCfg { fresh0 with dh := "a:b".toList } [] "tls-".toList rfl

/-- Counterexample to C10 as stated: under the prefix `a b` the dump of the
state after `dh=x` is ` a bdh=x`, whose tokens are `a` and `bdh=x`; neither
starts with `dh=`, and parsing them leaves `dh` empty. -/
theorem reparse_spaced_pfx_counterexample :
    SpaceFree "x".toList ∧
    (parse idPeerParse { fresh0 with encryptTransport := true }
      "dh=x".toList).1.encryptTransport = true ∧
    serverText noPeerDumpCfg
        (parse idPeerParse { fresh0 with encryptTransport := true } "dh=x".toList).1
        [] "a b".toList = " a bdh=x".toList ∧
    (reparse idPeerParse noPeerDumpCfg
        (parse idPeerParse { fresh0 with encryptTransport := true } "dh=x".toList).1
        [] "a b".toList fresh0.toPeerOptions).dh = [] ∧
    (reparse idPeerParse noPeerDumpCfg
        (parse idPeerParse { fresh0 with encryptTransport := true } "dh=x".toList).1
        [] "a b".toList fresh0.toPeerOptions).dh ≠
      (parse idPeerParse { fresh0 with encryptTransport := true } "dh=x".toList).1.dh := by
  decide

/-- Witness of C10 as amended: the value `secp384r1:/a.pem` under `tls-`. -/
theorem reparse_dh_roundtrip_witness :
    SpaceFree "secp384r1:/a.pem".toList ∧ SpaceFree "tls-".toList ∧
    (parse idPeerParse { fresh0 with encryptTransport := true }
      "dh=secp384r1:/a.pem".toList).1.encryptTransport = true ∧
    (reparse idPeerParse noPeerDumpCfg
        (parse idPeerParse { fresh0 with encryptTransport := true }
          "dh=secp384r1:/a.pem".toList).1
        [] "tls-".toList fresh0.toPeerOptions).dh = "secp384r1:/a.pem".toList ∧
    (reparse idPeerParse noPeerDumpCfg
        (parse idPeerParse { fresh0 with encryptTransport := true }
          "dh=secp384r1:/a.pem".toList).1
        [] "tls-".toList fresh0.toPeerOptions).dhParamsFile = "/a.pem".toList ∧
    (reparse idPeerParse noPeerDumpCfg
        (parse idPeerParse { fresh0 with encryptTransport := true }
          "dh=secp384r1:/a.pem".toList).1
        [] "tls-".toList fresh0.toPeerOptions).eecdhCurve = "secp384r1".toList :=
  ⟨by decide, by decide, by decide,
    reparse_dh_roundtrip idPeerParse noPeerDumpCfg { fresh0 with encryptTransport := true }
      "secp384r1:/a.pem".toList "tls-".toList [] fresh0.toPeerOptions
      (by decide) (by decide) rfl⟩

/-! ## Lemmas for the copy constructor, `updateContextEecdh` and `ZeroSensitiveMemory` -/

theorem memsetBytes_apply (m : Memory) (dst byte : Nat) :
    ∀ (n a : Nat), memsetBytes m dst byte n a =
      if dst ≤ a ∧ a < dst + n then byte else m a
  | 0, a => by
      have h : ¬ (dst ≤ a ∧ a < dst + 0) := by omega
      simp only [memsetBytes, h, if_false]
  | n + 1, a => by
      simp only [memsetBytes, memsetBytes_apply m dst byte n a]
      by_cases h1 : a = dst + n
      · subst h1
        simp
      · by_cases h2 : dst ≤ a ∧ a < dst + n
        · have h3 : dst ≤ a ∧ a < dst + (n + 1) := ⟨h2.1, by omega⟩
          simp [h1, h2, h3]
        · have h3 : ¬ (dst ≤ a ∧ a < dst + (n + 1)) := by
            intro h
            exact h2 ⟨h.1, by omega⟩
          simp [h1, h2, h3]

/-- The result of `updateContextEecdh` in a build with EECDH, for a curve name
that is not empty, that the library resolves and for which it allocates. -/
theorem updateContextEecdh_install_eq {β L Ctx Key : Type} (ssl : OpenSSL L Ctx Key)
    (s : ServerOptions β) (lib : L) (ctx : Ctx) (key : Key)
    (hc : s.eecdhCurve ≠ [])
    (hn : (ssl.OBJ_sn2nid lib s.eecdhCurve).2 ≠ 0)
    (ha : (ssl.EC_KEY_new_by_curve_name (ssl.OBJ_sn2nid lib s.eecdhCurve).1
            (ssl.OBJ_sn2nid lib s.eecdhCurve).2).2 = some key) :
    updateContextEecdh true ssl s lib ctx =
      (if (ssl.SSL_CTX_set_tmp_ecdh
            (ssl.EC_KEY_new_by_curve_name (ssl.OBJ_sn2nid lib s.eecdhCurve).1
              (ssl.OBJ_sn2nid lib s.eecdhCurve).2).1 ctx key).2.2 ≠ 0 then
        (ssl.EC_KEY_free
            (ssl.ERR_get_error
              (ssl.SSL_CTX_set_tmp_ecdh
                (ssl.EC_KEY_new_by_curve_name (ssl.OBJ_sn2nid lib s.eecdhCurve).1
                  (ssl.OBJ_sn2nid lib s.eecdhCurve).2).1 ctx key).1).1 key,
          (ssl.SSL_CTX_set_tmp_ecdh
            (ssl.EC_KEY_new_by_curve_name (ssl.OBJ_sn2nid lib s.eecdhCurve).1
              (ssl.OBJ_sn2nid lib s.eecdhCurve).2).1 ctx key).2.1,
          [EecdhEvent.debugs 83 (DebugLevel.level 9) (settingMsg s.eecdhCurve),
            EecdhEvent.OBJ_sn2nid s.eecdhCurve,
            EecdhEvent.EC_KEY_new_by_curve_name (ssl.OBJ_sn2nid lib s.eecdhCurve).2,
            EecdhEvent.SSL_CTX_set_tmp_ecdh key,
            EecdhEvent.ERR_get_error,
            EecdhEvent.ERR_error_string
              (ssl.ERR_get_error
                (ssl.SSL_CTX_set_tmp_ecdh
                  (ssl.EC_KEY_new_by_curve_name (ssl.OBJ_sn2nid lib s.eecdhCurve).1
                    (ssl.OBJ_sn2nid lib s.eecdhCurve).2).1 ctx key).1).2,
            EecdhEvent.debugs 83 DebugLevel.critical
              (unableToSetMsg
                (ssl.ERR_error_string
                  (ssl.ERR_get_error
                    (ssl.SSL_CTX_set_tmp_ecdh
                      (ssl.EC_KEY_new_by_curve_name (ssl.OBJ_sn2nid lib s.eecdhCurve).1
                        (ssl.OBJ_sn2nid lib s.eecdhCurve).2).1 ctx key).1).1
                  (ssl.ERR_get_error
                    (ssl.SSL_CTX_set_tmp_ecdh
                      (ssl.EC_KEY_new_by_curve_name (ssl.OBJ_sn2nid lib s.eecdhCurve).1
                        (ssl.OBJ_sn2nid lib s.eecdhCurve).2).1 ctx key).1).2)),
            EecdhEvent.EC_KEY_free key])
      else
        (ssl.EC_KEY_free
            (ssl.SSL_CTX_set_tmp_ecdh
              (ssl.EC_KEY_new_by_curve_name (ssl.OBJ_sn2nid lib s.eecdhCurve).1
                (ssl.OBJ_sn2nid lib s.eecdhCurve).2).1 ctx key).1 key,
          (ssl.SSL_CTX_set_tmp_ecdh
            (ssl.EC_KEY_new_by_curve_name (ssl.OBJ_sn2nid lib s.eecdhCurve).1
              (ssl.OBJ_sn2nid lib s.eecdhCurve).2).1 ctx key).2.1,
          [EecdhEvent.debugs 83 (DebugLevel.level 9) (settingMsg s.eecdhCurve),
            EecdhEvent.OBJ_sn2nid s.eecdhCurve,
            EecdhEvent.EC_KEY_new_by_curve_name (ssl.OBJ_sn2nid lib s.eecdhCurve).2,
            EecdhEvent.SSL_CTX_set_tmp_ecdh key,
            EecdhEvent.EC_KEY_free key])) := by
  have he : SBuf.isEmpty s.eecdhCurve = false := by
    cases h : s.eecdhCurve with
    | nil => exact absurd h hc
    | cons x xs => simp [SBuf.isEmpty]
  unfold updateContextEecdh
  simp only [he, Bool.false_eq_true, if_false, if_true, hn, ha]
  split <;> simp

/-- The result of `updateContextEecdh` in a build with EECDH, for a curve name
that is not empty and that the library does not know. -/
theorem updateContextEecdh_unknown_eq {β L Ctx Key : Type} (ssl : OpenSSL L Ctx Key)
    (s : ServerOptions β) (lib : L) (ctx : Ctx)
    (hc : s.eecdhCurve ≠ [])
    (hn : (ssl.OBJ_sn2nid lib s.eecdhCurve).2 = 0) :
    (updateContextEecdh true ssl s lib ctx : L × Ctx × List (EecdhEvent Key)) =
      ((ssl.OBJ_sn2nid lib s.eecdhCurve).1, ctx,
        [EecdhEvent.debugs 83 (DebugLevel.level 9) (settingMsg s.eecdhCurve),
          EecdhEvent.OBJ_sn2nid s.eecdhCurve,
          EecdhEvent.debugs 83 DebugLevel.critical (unknownCurveMsg s.eecdhCurve)]) := by
  have he : SBuf.isEmpty s.eecdhCurve = false := by
    cases h : s.eecdhCurve with
    | nil => exact absurd h hc
    | cons x xs => simp [SBuf.isEmpty]
  unfold updateContextEecdh
  simp [he, hn]

/-- The result of `updateContextEecdh` in a build with EECDH, for a curve name
that the library resolves and for which the allocation fails. -/
theorem updateContextEecdh_alloc_fail_eq {β L Ctx Key : Type} (ssl : OpenSSL L Ctx Key)
    (s : ServerOptions β) (lib : L) (ctx : Ctx)
    (hc : s.eecdhCurve ≠ [])
    (hn : (ssl.OBJ_sn2nid lib s.eecdhCurve).2 ≠ 0)
    (ha : (ssl.EC_KEY_new_by_curve_name (ssl.OBJ_sn2nid lib s.eecdhCurve).1
            (ssl.OBJ_sn2nid lib s.eecdhCurve).2).2 = none) :
    ((updateContextEecdh true ssl s lib ctx).2.2 : List (EecdhEvent Key)) =
      [EecdhEvent.debugs 83 (DebugLevel.level 9) (settingMsg s.eecdhCurve),
        EecdhEvent.OBJ_sn2nid s.eecdhCurve,
        EecdhEvent.EC_KEY_new_by_curve_name (ssl.OBJ_sn2nid lib s.eecdhCurve).2,
        EecdhEvent.ERR_get_error,
        EecdhEvent.ERR_error_string
          (ssl.ERR_get_error
            (ssl.EC_KEY_new_by_curve_name (ssl.OBJ_sn2nid lib s.eecdhCurve).1
              (ssl.OBJ_sn2nid lib s.eecdhCurve).2).1).2,
        EecdhEvent.debugs 83 DebugLevel.critical
          (unableToConfigureMsg
            (ssl.ERR_error_string
              (ssl.ERR_get_error
                (ssl.EC_KEY_new_by_curve_name (ssl.OBJ_sn2nid lib s.eecdhCurve).1
                  (ssl.OBJ_sn2nid lib s.eecdhCurve).2).1).1
              (ssl.ERR_get_error
                (ssl.EC_KEY_new_by_curve_name (ssl.OBJ_sn2nid lib s.eecdhCurve).1
                  (ssl.OBJ_sn2nid lib s.eecdhCurve).2).1).2))] ∧
    (updateContextEecdh true ssl s lib ctx).2.1 = ctx := by
  have he : SBuf.isEmpty s.eecdhCurve = false := by
    cases h : s.eecdhCurve with
    | nil => exact absurd h hc
    | cons x xs => simp [SBuf.isEmpty]
  unfold updateContextEecdh
  simp [he, hn, ha]

/-- The result of `updateContextEecdh` for an empty curve name. -/
theorem updateContextEecdh_empty_eq {β L Ctx Key : Type} (haveEcdh : Bool)
    (ssl : OpenSSL L Ctx Key) (s : ServerOptions β) (lib : L) (ctx : Ctx)
    (hc : s.eecdhCurve = []) :
    (updateContextEecdh haveEcdh ssl s lib ctx : L × Ctx × List (EecdhEvent Key)) =
      (lib, ctx, []) := by
  simp [updateContextEecdh, hc, SBuf.isEmpty]

/-- The result of `updateContextEecdh` in a build without EECDH, for a curve
name that is not empty. -/
theorem updateContextEecdh_no_ecdh_eq {β L Ctx Key : Type}
    (ssl : OpenSSL L Ctx Key) (s : ServerOptions β) (lib : L) (ctx : Ctx)
    (hc : s.eecdhCurve ≠ []) :
    (updateContextEecdh false ssl s lib ctx : L × Ctx × List (EecdhEvent Key)) =
      (lib, ctx,
        [EecdhEvent.debugs 83 (DebugLevel.level 9) (settingMsg s.eecdhCurve),
          EecdhEvent.debugs 83 DebugLevel.critical notAvailableMsg]) := by
  have he : SBuf.isEmpty s.eecdhCurve = false := by
    cases h : s.eecdhCurve with
    | nil => exact absurd h hc
    | cons x xs => simp [SBuf.isEmpty]
  unfold updateContextEecdh
  simp [he]

/-- In a build with EECDH, past a successful allocation, `updateContextEecdh`
reports an error exactly when `SSL_CTX_set_tmp_ecdh` returns a value other than
0: line 110 of ServerOptions.cc tests `!= 0`. -/
theorem updateContextEecdh_reports_iff_nonzero {β L Ctx Key : Type}
    (ssl : OpenSSL L Ctx Key) (s : ServerOptions β) (lib : L) (ctx : Ctx) (key : Key)
    (hc : s.eecdhCurve ≠ [])
    (hn : (ssl.OBJ_sn2nid lib s.eecdhCurve).2 ≠ 0)
    (ha : (ssl.EC_KEY_new_by_curve_name (ssl.OBJ_sn2nid lib s.eecdhCurve).1
            (ssl.OBJ_sn2nid lib s.eecdhCurve).2).2 = some key) :
    (updateContextEecdh true ssl s lib ctx).2.2.filter EecdhEvent.isError ≠ [] ↔
      (ssl.SSL_CTX_set_tmp_ecdh
        (ssl.EC_KEY_new_by_curve_name (ssl.OBJ_sn2nid lib s.eecdhCurve).1
          (ssl.OBJ_sn2nid lib s.eecdhCurve).2).1 ctx key).2.2 ≠ 0 := by
  rw [updateContextEecdh_install_eq ssl s lib ctx key hc hn ha]
  split
  · rename_i h
    simp [EecdhEvent.isError, h]
  · rename_i h
    simp [EecdhEvent.isError, h]

/-! ## Claims on `ZeroSensitiveMemory`, `updateContextEecdh` and the copy constructor -/

/-- C11: `ZeroSensitiveMemory` on explicit memory: for a non-null `dst` and a
length `len > 0` the call returns, every byte of the region
`dst, ..., dst + len - 1` is zero afterwards and every byte outside the region
is as before; when `len` is 0 or `dst` is null the call returns with the
memory as it was. -/
theorem ZeroSensitiveMemory_zeroes_region (m : Memory) (dst len : Nat) :
    (dst ≠ 0 → 0 < len →
      ∃ m2, ZeroSensitiveMemory m dst len = some m2 ∧
        (∀ a, dst ≤ a → a < dst + len → m2 a = 0) ∧
        (∀ a, (a < dst ∨ dst + len ≤ a) → m2 a = m a)) ∧
    (len = 0 ∨ dst = 0 → ZeroSensitiveMemory m dst len = some m) := by
  constructor
  · intro hd hl
    refine ⟨memsetBytes m dst 0 len, ?_, ?_, ?_⟩
    · have hl2 : len ≠ 0 := by omega
      simp [ZeroSensitiveMemory, memset, hd, hl2]
    · intro a h1 h2
      rw [memsetBytes_apply, if_pos ⟨h1, h2⟩]
    · intro a h
      have h3 : ¬ (dst ≤ a ∧ a < dst + len) := by omega
      rw [memsetBytes_apply, if_neg h3]
  · intro h
    unfold ZeroSensitiveMemory
    rcases h with h | h
    · simp [h]
    · simp [h]

/-- C13: for an empty `eecdhCurve`, `updateContextEecdh` makes no call into the
cryptographic library and no `debugs` call, and leaves the library state and
the context as they were, in a build with EECDH support and in one without. -/
theorem updateContextEecdh_empty_curve {β L Ctx Key : Type} (haveEcdh : Bool)
    (ssl : OpenSSL L Ctx Key) (s : ServerOptions β) (lib : L) (ctx : Ctx)
    (hc : s.eecdhCurve = []) :
    (updateContextEecdh haveEcdh ssl s lib ctx : L × Ctx × List (EecdhEvent Key)) =
      (lib, ctx, []) :=
  updateContextEecdh_empty_eq haveEcdh ssl s lib ctx hc

/-- C14: in a build with EECDH support, for an `eecdhCurve` that is not empty
and that `OBJ_sn2nid` resolves to 0, `updateContextEecdh` makes that one call
into the library (no allocation, no install, no release), reports one error,
whose text holds the curve name, and leaves the context as it was. -/
theorem updateContextEecdh_unknown_curve {β L Ctx Key : Type} (ssl : OpenSSL L Ctx Key)
    (s : ServerOptions β) (lib : L) (ctx : Ctx)
    (hc : s.eecdhCurve ≠ [])
    (hn : (ssl.OBJ_sn2nid lib s.eecdhCurve).2 = 0) :
    (updateContextEecdh true ssl s lib ctx : L × Ctx × List (EecdhEvent Key)).2.1 = ctx ∧
    (updateContextEecdh true ssl s lib ctx : L × Ctx × List (EecdhEvent Key)).2.2 =
      [EecdhEvent.debugs 83 (DebugLevel.level 9) (settingMsg s.eecdhCurve),
        EecdhEvent.OBJ_sn2nid s.eecdhCurve,
        EecdhEvent.debugs 83 DebugLevel.critical
          ("ERROR: Unknown EECDH curve '" ++ String.mk s.eecdhCurve ++ "'")] ∧
    (updateContextEecdh true ssl s lib ctx :
        L × Ctx × List (EecdhEvent Key)).2.2.filter EecdhEvent.isError =
      [EecdhEvent.debugs 83 DebugLevel.critical
          ("ERROR: Unknown EECDH curve '" ++ String.mk s.eecdhCurve ++ "'")] ∧
    (updateContextEecdh true ssl s lib ctx :
        L × Ctx × List (EecdhEvent Key)).2.2.filter EecdhEvent.isLibraryCall =
      [EecdhEvent.OBJ_sn2nid s.eecdhCurve] := by
  rw [updateContextEecdh_unknown_eq ssl s lib ctx hc hn]
  simp [EecdhEvent.isError, EecdhEvent.isLibraryCall, unknownCurveMsg]

/-- C16: copy construction duplicates the three server-only fields: the copy
has the `dh`, `dhParamsFile` and `eecdhCurve` of the source. -/
theorem copy_duplicates_server_fields {β : Type} (peerDefault : PeerOptions β)
    (s : ServerOptions β) :
    (ServerOptions.copy peerDefault s).dh = s.dh ∧
    (ServerOptions.copy peerDefault s).dhParamsFile = s.dhParamsFile ∧
    (ServerOptions.copy peerDefault s).eecdhCurve = s.eecdhCurve :=
  ⟨rfl, rfl, rfl⟩

/-- C18: balanced release in `updateContextEecdh`, over the events of a call:
when the allocation succeeds the allocated object is released once, the
release is the last event and the install attempt stands before it, whatever
the install returns; when the build has no EECDH, the curve is empty, the name
is unknown or the allocation fails, there is no release. -/
theorem updateContextEecdh_release_balanced {β L Ctx Key : Type} (haveEcdh : Bool)
    (ssl : OpenSSL L Ctx Key) (s : ServerOptions β) (lib : L) (ctx : Ctx) :
    (∀ key, haveEcdh = true → s.eecdhCurve ≠ [] →
      (ssl.OBJ_sn2nid lib s.eecdhCurve).2 ≠ 0 →
      (ssl.EC_KEY_new_by_curve_name (ssl.OBJ_sn2nid lib s.eecdhCurve).1
        (ssl.OBJ_sn2nid lib s.eecdhCurve).2).2 = some key →
      (updateContextEecdh haveEcdh ssl s lib ctx).2.2.filter EecdhEvent.isFree =
        [EecdhEvent.EC_KEY_free key] ∧
      ∃ before between : List (EecdhEvent Key),
        (updateContextEecdh haveEcdh ssl s lib ctx).2.2 =
          before ++ EecdhEvent.SSL_CTX_set_tmp_ecdh key :: between ++
            [EecdhEvent.EC_KEY_free key]) ∧
    (haveEcdh = false ∨ s.eecdhCurve = [] ∨
      (ssl.OBJ_sn2nid lib s.eecdhCurve).2 = 0 ∨
      (ssl.EC_KEY_new_by_curve_name (ssl.OBJ_sn2nid lib s.eecdhCurve).1
        (ssl.OBJ_sn2nid lib s.eecdhCurve).2).2 = none →
      ((updateContextEecdh haveEcdh ssl s lib ctx).2.2 :
        List (EecdhEvent Key)).filter EecdhEvent.isFree = []) := by
  constructor
  · intro key hb hc hn ha
    subst hb
    rw [updateContextEecdh_install_eq ssl s lib ctx key hc hn ha]
    split
    · refine ⟨by simp [EecdhEvent.isFree], ?_⟩
      exact ⟨[EecdhEvent.debugs 83 (DebugLevel.level 9) (settingMsg s.eecdhCurve),
          EecdhEvent.OBJ_sn2nid s.eecdhCurve,
          EecdhEvent.EC_KEY_new_by_curve_name (ssl.OBJ_sn2nid lib s.eecdhCurve).2],
        [EecdhEvent.ERR_get_error, EecdhEvent.ERR_error_string _,
          EecdhEvent.debugs 83 DebugLevel.critical _], rfl⟩
    · refine ⟨by simp [EecdhEvent.isFree], ?_⟩
      exact ⟨[EecdhEvent.debugs 83 (DebugLevel.level 9) (settingMsg s.eecdhCurve),
          EecdhEvent.OBJ_sn2nid s.eecdhCurve,
          EecdhEvent.EC_KEY_new_by_curve_name (ssl.OBJ_sn2nid lib s.eecdhCurve).2],
        [], rfl⟩
  · intro h
    by_cases hc : s.eecdhCurve = []
    · rw [updateContextEecdh_empty_eq haveEcdh ssl s lib ctx hc]
      rfl
    · cases haveEcdh with
      | false =>
          rw [updateContextEecdh_no_ecdh_eq ssl s lib ctx hc]
          rfl
      | true =>
          by_cases hn : (ssl.OBJ_sn2nid lib s.eecdhCurve).2 = 0
          · rw [updateContextEecdh_unknown_eq ssl s lib ctx hc hn]
            rfl
          · rcases h with h | h | h | h
            · exact absurd h (by simp)
            · exact absurd h hc
            · exact absurd h hn
            · rw [(updateContextEecdh_alloc_fail_eq ssl s lib ctx hc hn h).1]
              rfl

/-! ## Lemmas for the round trip of the legacy form and for the reachable states -/

theorem reparse_eq {β : Type} (peerParse : CStr → PeerOptions β → PeerOptions β)
    (peerDumpCfg : PeerOptions β → Packable → CStr → Packable)
    (s : ServerOptions β) (p : Packable) (pfx : CStr) (b : PeerOptions β)
    (he : s.encryptTransport = true) (hv : SpaceFree s.dh) (hp : SpaceFree pfx) :
    reparse peerParse peerDumpCfg s p pfx b =
      if s.dh = [] then ServerOptions.fresh b
      else (parse peerParse (ServerOptions.fresh b) (dhKey ++ s.dh)).1 := by
  unfold reparse
  rw [serverText_eq, he]
  by_cases hne : s.dh = []
  · simp [hne, tokens, tokensAux, parseAll]
  · have hw : SpaceFree (pfx ++ (dhKey ++ s.dh)) := by
      intro c hc
      rcases List.mem_append.1 hc with h | h
      · exact hp c h
      · rcases List.mem_append.1 h with h | h
        · have hk : SpaceFree dhKey := by decide
          exact hk c h
        · exact hv c h
    have ht : tokens ([' '] ++ pfx ++ dhKey ++ s.dh) = [pfx ++ (dhKey ++ s.dh)] := by
      have := tokens_space_cons (pfx ++ (dhKey ++ s.dh)) hw (by simp [dhKey])
      simpa using this
    simp only [true_and, ne_eq, hne, not_false_eq_true, if_true, if_false, ht, List.map_cons,
      List.map_nil, stripPfx_append, parseAll, List.foldl_cons, List.foldl_nil]

/-- The four ways of a token through `parse`. -/
theorem parse_token_cases {β : Type} (peerParse : CStr → PeerOptions β → PeerOptions β)
    (s : ServerOptions β) (token : CStr) :
    token = [] ∨ (∃ v, token = dhKey ++ v) ∨ (∃ v, token = dhparamsKey ++ v) ∨
      parse peerParse s token =
        ({ s with toPeerOptions := peerParse token s.toPeerOptions },
          [Event.peerParse token]) := by
  by_cases h0 : token = []
  · exact Or.inl h0
  · by_cases h1 : strncmp token dhKey 3 = 0
    · obtain ⟨v, hv⟩ := (strncmp_dhKey_iff token).1 h1
      exact Or.inr (Or.inl ⟨v, hv.symm⟩)
    · by_cases h2 : strncmp token dhparamsKey 9 = 0
      · obtain ⟨v, hv⟩ := (strncmp_dhparamsKey_iff token).1 h2
        exact Or.inr (Or.inr (Or.inl ⟨v, hv.symm⟩))
      · have e0 : token.isEmpty = false := by
          cases token with
          | nil => exact absurd rfl h0
          | cons x xs => rfl
        exact Or.inr (Or.inr (Or.inr (by simp [parse, e0, h1, h2])))

theorem DhConsistent_parse {β : Type} (peerParse : CStr → PeerOptions β → PeerOptions β)
    (s : ServerOptions β) (token : CStr) (h : DhConsistent s) :
    DhConsistent (parse peerParse s token).1 := by
  rcases parse_token_cases peerParse s token with h0 | ⟨v, hv⟩ | ⟨v, hv⟩ | hp
  · subst h0
    simpa [parse, DhConsistent] using h
  · subst hv
    rw [parse_dh_eq]
    rcases SBuf.find_cases ':' v with ⟨h1, h2⟩ | ⟨a, f, h1, h2, h3⟩
    · rw [h1]
      simp [DhConsistent]
    · rw [h3]
      subst h1
      simp [DhConsistent, h2]
  · subst hv
    rw [parse_dhparams_eq]
    by_cases hc : s.eecdhCurve = []
    · rw [if_pos hc]
      simp [DhConsistent, hc]
    · rw [if_neg hc]
      exact h
  · rw [hp]
    exact h

theorem DhConsistent_of_reachable {β : Type}
    (peerParse : CStr → PeerOptions β → PeerOptions β) (peerDefault : PeerOptions β)
    (s : ServerOptions β) (h : Reachable peerParse peerDefault s) : DhConsistent s := by
  induction h with
  | fresh b => simp [DhConsistent, ServerOptions.fresh]
  | parse s token _ ih => exact DhConsistent_parse peerParse s token ih
  | copy s _ ih => exact ih

/-! ## Claims on the legacy round trip and on the reachable states -/

/-- C19: round trip through the legacy form: with `s` the state after
`parse("dhparams=" ++ v)` on a freshly constructed ServerOptions with
`encryptTransport` set, `v` without whitespace, parsing what `dumpCfg` emits
for `s` (the caller's prefix, itself without whitespace, removed) into a fresh
ServerOptions gives the `dh`, `dhParamsFile` and `eecdhCurve` of `s` if and
only if `v` holds no colon. -/
theorem reparse_dhparams_roundtrip_iff {β : Type}
    (peerParse : CStr → PeerOptions β → PeerOptions β)
    (peerDumpCfg : PeerOptions β → Packable → CStr → Packable)
    (v pfx : CStr) (p : Packable) (b b2 : PeerOptions β)
    (hv : SpaceFree v) (hp : SpaceFree pfx) (he : b.encryptTransport = true) :
    ((reparse peerParse peerDumpCfg
          (parse peerParse (ServerOptions.fresh b) (dhparamsKey ++ v)).1 p pfx b2).dh =
        (parse peerParse (ServerOptions.fresh b) (dhparamsKey ++ v)).1.dh ∧
      (reparse peerParse peerDumpCfg
          (parse peerParse (ServerOptions.fresh b) (dhparamsKey ++ v)).1 p pfx b2).dhParamsFile =
        (parse peerParse (ServerOptions.fresh b) (dhparamsKey ++ v)).1.dhParamsFile ∧
      (reparse peerParse peerDumpCfg
          (parse peerParse (ServerOptions.fresh b) (dhparamsKey ++ v)).1 p pfx b2).eecdhCurve =
        (parse peerParse (ServerOptions.fresh b) (dhparamsKey ++ v)).1.eecdhCurve) ↔
      ':' ∉ v := by
  have hs : (parse peerParse (ServerOptions.fresh b) (dhparamsKey ++ v)).1 =
      { ServerOptions.fresh b with dh := v, dhParamsFile := v } := by
    rw [parse_dhparams_eq]
    simp [ServerOptions.fresh]
  rw [hs, reparse_eq peerParse peerDumpCfg _ p pfx b2 he hv hp]
  by_cases hne : v = []
  · subst hne
    simp [ServerOptions.fresh]
  · simp only [hne, if_false]
    rw [parse_dh_eq]
    rcases SBuf.find_cases ':' v with ⟨h1, h2⟩ | ⟨a, f, h1, h2, h3⟩
    · rw [h1]
      simp [ServerOptions.fresh, h2]
    · rw [h3]
      subst h1
      have hlen : ¬ (f = a ++ ':' :: f) := by
        intro h
        have := congrArg List.length h
        simp at this
        omega
      simp [ServerOptions.fresh, hlen]

/-- C20: in every state reachable from a freshly constructed ServerOptions by
calls of `parse` (the base parser acting on the inherited part alone) and by
copy construction, `eecdhCurve` holds no colon, `dh` is `dhParamsFile` or
`eecdhCurve ++ ":" ++ dhParamsFile`, and it is the latter whenever
`eecdhCurve` is not empty. -/
theorem reachable_dh_fields_consistent {β : Type}
    (peerParse : CStr → PeerOptions β → PeerOptions β) (peerDefault : PeerOptions β)
    (s : ServerOptions β) (h : Reachable peerParse peerDefault s) :
    ':' ∉ s.eecdhCurve ∧
    (s.dh = s.dhParamsFile ∨ s.dh = s.eecdhCurve ++ [':'] ++ s.dhParamsFile) ∧
    (s.eecdhCurve ≠ [] → s.dh = s.eecdhCurve ++ [':'] ++ s.dhParamsFile) :=
  DhConsistent_of_reachable peerParse peerDefault s h

/-! ## The code at the inputs where it departs from C15 and C17 -/

/-- C15, the code at the failing input: with a library whose install call
returns 1, its success value, and sets the parameters of the context,
`updateContextEecdh` reports "Unable to set Ephemeral ECDH"; with a library
whose install call returns 0, its failure value, and leaves the context as it
was, `updateContextEecdh` reports no error. -/
theorem updateContextEecdh_install_report_inverted :
    ((updateContextEecdh true (stubSSL true 1)
        (parse idPeerParse fresh0 "dh=prime256v1:/a.pem".toList).1 () none).2.1 = some 415 ∧
      (updateContextEecdh true (stubSSL true 1)
        (parse idPeerParse fresh0 "dh=prime256v1:/a.pem".toList).1 () none).2.2.filter
          EecdhEvent.isError =
        [EecdhEvent.debugs 83 DebugLevel.critical
          "ERROR: Unable to set Ephemeral ECDH: error:00000000:lib(0):func(0):reason(0)"]) ∧
    ((updateContextEecdh true (stubSSL true 0)
        (parse idPeerParse fresh0 "dh=prime256v1:/a.pem".toList).1 () none).2.1 = none ∧
      (updateContextEecdh true (stubSSL true 0)
        (parse idPeerParse fresh0 "dh=prime256v1:/a.pem".toList).1 () none).2.2.filter
          EecdhEvent.isError = []) := by
  decide

/-- C17, the code at the failing input: the inherited part of a copy is the
default-constructed one whatever the source holds, so for every default there
is a source whose `encryptTransport` the copy does not have; with the default
`encryptTransport` off, the copy of a state that dumps ` tls-dh=a:b` dumps
nothing. -/
theorem copy_drops_inherited_state :
    (∀ (d : PeerOptions Unit) (s : ServerOptions Unit),
      (ServerOptions.copy d s).toPeerOptions = d) ∧
    (∀ d : PeerOptions Unit, ∃ s : ServerOptions Unit,
      (ServerOptions.copy d s).encryptTransport ≠ s.encryptTransport) ∧
    dumpCfg noPeerDumpCfg
        (parse idPeerParse { fresh0 with encryptTransport := true } "dh=a:b".toList).1
        [] "tls-".toList = " tls-dh=a:b".toList ∧
    dumpCfg noPeerDumpCfg
        (ServerOptions.copy ⟨false, ()⟩
          (parse idPeerParse { fresh0 with encryptTransport := true } "dh=a:b".toList).1)
        [] "tls-".toList = [] := by
  refine ⟨fun _ _ => rfl, ?_, by decide, by decide⟩
  intro d
  refine ⟨{ fresh0 with encryptTransport := !d.encryptTransport }, ?_⟩
  cases hd : d.encryptTransport <;> simp [ServerOptions.copy, hd]

/-! ## The claims at concrete inputs -/

/-- Witness of C11: a memory of bytes 255, the region of 2 bytes at address 4;
and the calls with a null address and with length 0. -/
theorem ZeroSensitiveMemory_zeroes_region_witness :
    ((4 : Nat) ≠ 0 ∧ 0 < 2) ∧
    (∃ m2, ZeroSensitiveMemory (fun _ => 255) 4 2 = some m2 ∧
      (m2 4 = 0 ∧ m2 5 = 0) ∧ (m2 3 = 255 ∧ m2 6 = 255)) ∧
    ZeroSensitiveMemory (fun _ => 255) 0 2 = some (fun _ => 255) ∧
    ZeroSensitiveMemory (fun _ => 255) 4 0 = some (fun _ => 255) :=
  ⟨⟨by decide, by decide⟩,
    Exists.imp
      (fun _ h => ⟨h.1, ⟨h.2.1 4 (by decide) (by decide), h.2.1 5 (by decide) (by decide)⟩,
        ⟨h.2.2 3 (Or.inl (by decide)), h.2.2 6 (Or.inr (by decide))⟩⟩)
      ((ZeroSensitiveMemory_zeroes_region (fun _ => 255) 4 2).1 (by decide) (by decide)),
    (ZeroSensitiveMemory_zeroes_region (fun _ => 255) 0 2).2 (Or.inr rfl),
    (ZeroSensitiveMemory_zeroes_region (fun _ => 255) 4 0).2 (Or.inl rfl)⟩

/-- Witness of C13: a freshly constructed ServerOptions, in a build with EECDH
and in one without. -/
theorem updateContextEecdh_empty_curve_witness :
    fresh0.eecdhCurve = [] ∧
    updateContextEecdh true (stubSSL true 1) fresh0 () none = ((), none, []) ∧
    updateContextEecdh false (stubSSL true 1) fresh0 () none = ((), none, []) :=
  ⟨rfl, updateContextEecdh_empty_curve true (stubSSL true 1) fresh0 () none rfl,
    updateContextEecdh_empty_curve false (stubSSL true 1) fresh0 () none rfl⟩

/-- Witness of C14: the curve name `nosuchcurve`, which the library does not
know. -/
theorem updateContextEecdh_unknown_curve_witness :
    (parse idPeerParse fresh0 "dh=nosuchcurve:/a.pem".toList).1.eecdhCurve ≠ [] ∧
    ((stubSSL true 1).OBJ_sn2nid ()
      (parse idPeerParse fresh0 "dh=nosuchcurve:/a.pem".toList).1.eecdhCurve).2 = 0 ∧
    (updateContextEecdh true (stubSSL true 1)
      (parse idPeerParse fresh0 "dh=nosuchcurve:/a.pem".toList).1 () none).2.1 = none ∧
    (updateContextEecdh true (stubSSL true 1)
      (parse idPeerParse fresh0 "dh=nosuchcurve:/a.pem".toList).1 () none).2.2.filter
        EecdhEvent.isError =
      [EecdhEvent.debugs 83 DebugLevel.critical "ERROR: Unknown EECDH curve 'nosuchcurve'"] :=
  ⟨by decide, by decide,
    (updateContextEecdh_unknown_curve (stubSSL true 1)
      (parse idPeerParse fresh0 "dh=nosuchcurve:/a.pem".toList).1 () none
      (by decide) (by decide)).1,
    (updateContextEecdh_unknown_curve (stubSSL true 1)
      (parse idPeerParse fresh0 "dh=nosuchcurve:/a.pem".toList).1 () none
      (by decide) (by decide)).2.2.1.trans (by decide)⟩

/-- Witness of C18: the curve `prime256v1` with a library that allocates, and
with one that does not. -/
theorem updateContextEecdh_release_balanced_witness :
    (updateContextEecdh true (stubSSL true 1)
      (parse idPeerParse fresh0 "dh=prime256v1:/a.pem".toList).1 () none).2.2.filter
        EecdhEvent.isFree = [EecdhEvent.EC_KEY_free 415] ∧
    (updateContextEecdh true (stubSSL false 1)
      (parse idPeerParse fresh0 "dh=prime256v1:/a.pem".toList).1 () none).2.2.filter
        EecdhEvent.isFree = [] :=
  ⟨((updateContextEecdh_release_balanced true (stubSSL true 1)
      (parse idPeerParse fresh0 "dh=prime256v1:/a.pem".toList).1 () none).1 415
      rfl (by decide) (by decide) (by decide)).1,
    (updateContextEecdh_release_balanced true (stubSSL false 1)
      (parse idPeerParse fresh0 "dh=prime256v1:/a.pem".toList).1 () none).2
      (Or.inr (Or.inr (Or.inr (by decide))))⟩

/-- Witness of C19: the value `a:b` does not come back, the re-parsed state has
the curve `a` and the file `b`; the value `/b.pem` comes back. -/
theorem reparse_dhparams_roundtrip_iff_witness :
    (SpaceFree "a:b".toList ∧ SpaceFree "tls-".toList) ∧
    ¬ ((reparse idPeerParse noPeerDumpCfg
          (parse idPeerParse (ServerOptions.fresh ⟨true, ()⟩) "dhparams=a:b".toList).1
          [] "tls-".toList ⟨false, ()⟩).dh =
        (parse idPeerParse (ServerOptions.fresh ⟨true, ()⟩) "dhparams=a:b".toList).1.dh ∧
      (reparse idPeerParse noPeerDumpCfg
          (parse idPeerParse (ServerOptions.fresh ⟨true, ()⟩) "dhparams=a:b".toList).1
          [] "tls-".toList ⟨false, ()⟩).dhParamsFile =
        (parse idPeerParse (ServerOptions.fresh ⟨true, ()⟩)
          "dhparams=a:b".toList).1.dhParamsFile ∧
      (reparse idPeerParse noPeerDumpCfg
          (parse idPeerParse (ServerOptions.fresh ⟨true, ()⟩) "dhparams=a:b".toList).1
          [] "tls-".toList ⟨false, ()⟩).eecdhCurve =
        (parse idPeerParse (ServerOptions.fresh ⟨true, ()⟩)
          "dhparams=a:b".toList).1.eecdhCurve) ∧
    ((reparse idPeerParse noPeerDumpCfg
          (parse idPeerParse (ServerOptions.fresh ⟨true, ()⟩) "dhparams=a:b".toList).1
          [] "tls-".toList ⟨false, ()⟩).eecdhCurve = "a".toList ∧
      (reparse idPeerParse noPeerDumpCfg
          (parse idPeerParse (ServerOptions.fresh ⟨true, ()⟩) "dhparams=a:b".toList).1
          [] "tls-".toList ⟨false, ()⟩).dhParamsFile = "b".toList ∧
      (parse idPeerParse (ServerOptions.fresh ⟨true, ()⟩)
          "dhparams=a:b".toList).1.eecdhCurve = [] ∧
      (parse idPeerParse (ServerOptions.fresh ⟨true, ()⟩)
          "dhparams=a:b".toList).1.dhParamsFile = "a:b".toList) ∧
    (reparse idPeerParse noPeerDumpCfg
          (parse idPeerParse (ServerOptions.fresh ⟨true, ()⟩) "dhparams=/b.pem".toList).1
          [] "tls-".toList ⟨false, ()⟩).dhParamsFile =
        (parse idPeerParse (ServerOptions.fresh ⟨true, ()⟩)
          "dhparams=/b.pem".toList).1.dhParamsFile :=
  ⟨⟨by decide, by decide⟩,
    mt (reparse_dhparams_roundtrip_iff idPeerParse noPeerDumpCfg "a:b".toList "tls-".toList
        [] ⟨true, ()⟩ ⟨false, ()⟩ (by decide) (by decide) rfl).1 (by decide),
    by decide,
    ((reparse_dhparams_roundtrip_iff idPeerParse noPeerDumpCfg "/b.pem".toList "tls-".toList
        [] ⟨true, ()⟩ ⟨false, ()⟩ (by decide) (by decide) rfl).2 (by decide)).2.1⟩

/-- Witness of C20: the state after `dh=a:b`, `dhparams=/c.pem`, a copy and
`dh=d:e:f`. -/
theorem reachable_dh_fields_consistent_witness :
    Reachable idPeerParse ⟨false, ()⟩
      (parse idPeerParse
        (ServerOptions.copy ⟨false, ()⟩
          (parse idPeerParse (parse idPeerParse fresh0 "dh=a:b".toList).1
            "dhparams=/c.pem".toList).1)
        "dh=d:e:f".toList).1 ∧
    (parse idPeerParse
        (ServerOptions.copy ⟨false, ()⟩
          (parse idPeerParse (parse idPeerParse fresh0 "dh=a:b".toList).1
            "dhparams=/c.pem".toList).1)
        "dh=d:e:f".toList).1.dh =
      (parse idPeerParse
        (ServerOptions.copy ⟨false, ()⟩
          (parse idPeerParse (parse idPeerParse fresh0 "dh=a:b".toList).1
            "dhparams=/c.pem".toList).1)
        "dh=d:e:f".toList).1.eecdhCurve ++ [':'] ++
      (parse idPeerParse
        (ServerOptions.copy ⟨false, ()⟩
          (parse idPeerParse (parse idPeerParse fresh0 "dh=a:b".toList).1
            "dhparams=/c.pem".toList).1)
        "dh=d:e:f".toList).1.dhParamsFile :=
  ⟨Reachable.parse _ _ (Reachable.copy _ (Reachable.parse _ _ (Reachable.parse _ _
      (Reachable.fresh _)))),
    (reachable_dh_fields_consistent idPeerParse ⟨false, ()⟩ _
      (Reachable.parse _ _ (Reachable.copy _ (Reachable.parse _ _ (Reachable.parse _ _
        (Reachable.fresh ⟨false, ()⟩)))))).2.2 (by decide)⟩

end Security
